import Mathlib

/-!
Verification of the gmail-stats ingestion job (src/main.rs).

The development shallowly embeds the program's pure logic:

* the two compiled regular expressions EMAIL_RE_1 and EMAIL_RE_2 and the
  function cleanup_sender (main.rs lines 11-15 and 237-250);
* header selection get_sender (lines 252-306);
* the SQLite-backed state as an explicit record DB with the operations
  seen_mail, mark_seen and increment_sender_mails (lines 176-234), where a
  SQL table is an ordered list of rows, an INSERT appends a row, and an
  UPDATE rewrites the rows whose key matches;
* the per-message loop parse_messages (lines 118-174), with the remote
  provider abstracted as a pure oracle fetch : String -> Message and the
  per-message transaction's commit-or-rollback visible as TxOutcome;
* the top-level retry loop of main (lines 68-82) as a step function on a
  small state machine.

Rust panics (the expect calls on missing message ids and missing header
values) are modelled as the Res.panicked result; recoverable sqlx errors
(the UNIQUE-constraint violation an INSERT can hit) as Res.storageErr.
Machine integers: the senders.mails_sent column is read into an i32 and
SQLite stores signed integers, so counts are modelled as Int.
-/

namespace GmailStats

/-! ## Regex model

EMAIL_RE_1 is the anchored pattern (main.rs line 13)
  [caret] [^<]* <? ( [\w\-\.]+ @ ( [\w-]+ \. )+ [\w-] at-least-2-at-most-4 ) .* [dollar]
and EMAIL_RE_2 (line 14) is the same capture anchored alone:
  [caret] ( [\w\-\.]+ @ ( [\w-]+ \. )+ [\w-] at-least-2-at-most-4 ) [dollar]
The rust regex crate gives Perl-style leftmost-first (preference-order)
semantics for captures.  Both patterns are anchored at both ends, so
captures_iter yields at most one match and the last-wins loop in
cleanup_sender degenerates to the single leftmost-first capture.  The tail
.* [dollar] of EMAIL_RE_1 is modelled exactly: the dot does not match a
newline and the anchor is end of haystack, so a candidate capture position
only matches when the text after the capture holds no newline (backtracking
inside the capture only moves its end earlier, so the remainder of every
backtracked alternative contains whatever newline the greedy remainder
contains, and checking the greedy remainder is exact).  The class \w is
modelled over its ASCII range [A-Za-z0-9_]; the crate's \w is Unicode-aware,
so the regex model coincides with the program exactly on inputs whose
characters are all ASCII, and the normalizer theorems that quantify over
inputs restrict themselves to that domain (charsAscii below).  Strings are
worked on as their character lists. -/

/-- Whether a character is ASCII: on these characters the modelled \w agrees
with the crate's Unicode-aware \w. -/
def charAscii (c : Char) : Bool :=
  c.toNat < 128

/-- Whether every character of the text is ASCII: the domain on which the
regex model is exact. -/
def charsAscii (s : List Char) : Bool :=
  s.all charAscii

/-- Word character of the regex class backslash-w, ASCII range. -/
def isWordChar (c : Char) : Bool :=
  c.isAlphanum || c == '_'

/-- Character class of the local part in both regexes: word char, hyphen or dot. -/
def isW1 (c : Char) : Bool :=
  isWordChar c || c == '-' || c == '.'

/-- Character class of domain labels and the final token: word char or hyphen. -/
def isW2 (c : Char) : Bool :=
  isWordChar c || c == '-'

/-- One greedy iteration of the group ( [\w-]+ \. ): the maximal nonempty
run of isW2 characters followed by a literal dot.  Because a dot is not an
isW2 character, a shorter run would abut an isW2 character and fail, so the
iteration is deterministic.  Returns (consumed text, remainder). -/
def labelStepParts (s : List Char) : Option (List Char × List Char) :=
  if (s.takeWhile isW2).isEmpty then none
  else
    match s.dropWhile isW2 with
    | '.' :: rest2 => some (s.takeWhile isW2 ++ ['.'], rest2)
    | _ => none

/-- Greedy match of ( [\w-]+ \. )+ [\w-] at-least-2-at-most-4 at the head of
the input.  Preference order: as many label iterations as possible, backing
off one at a time; at the stop, the final token takes up to four isW2
characters and needs at least two.  Returns the consumed (captured) text and
the unconsumed remainder.  Fuel is the input length; each label iteration
consumes at least two characters. -/
def domMatchAux : Nat → List Char → Option (List Char × List Char)
  | 0, _ => none
  | fuel + 1, s =>
    match labelStepParts s with
    | none => none
    | some (lab, rest2) =>
      match domMatchAux fuel rest2 with
      | some (dom, rest) => some (lab ++ dom, rest)
      | none =>
        if 2 ≤ (rest2.takeWhile isW2).length then
          some (lab ++ (rest2.takeWhile isW2).take 4,
            (rest2.takeWhile isW2).drop 4 ++ rest2.dropWhile isW2)
        else none

/-- Greedy domain match, fuel instantiated. -/
def domMatch (s : List Char) : Option (List Char × List Char) :=
  domMatchAux s.length s

/-- Greedy match of the full capture group
( [\w\-\.]+ @ ( [\w-]+ \. )+ [\w-] at-least-2-at-most-4 ) at the head of the
input: the maximal nonempty isW1 run (an at-sign is not isW1, so the run is
deterministic), a literal at-sign, then the domain.  Returns the captured
address and the unconsumed remainder. -/
def matchAddr (s : List Char) : Option (List Char × List Char) :=
  if (s.takeWhile isW1).isEmpty then none
  else
    match s.dropWhile isW1 with
    | '@' :: rest1 =>
      match domMatch rest1 with
      | some (dom, rest) => some (s.takeWhile isW1 ++ '@' :: dom, rest)
      | none => none
    | _ => none

/-- Split the input around its first angle bracket: some (before, after), or
none when the input has no angle bracket. -/
def splitAtLt : List Char → Option (List Char × List Char)
  | [] => none
  | c :: cs =>
    if c == '<' then some ([], cs)
    else
      match splitAtLt cs with
      | some (pre, post) => some (c :: pre, post)
      | none => none

/-- Preference-ordered search for the capture of EMAIL_RE_1.  The prefix
[^<]* <? is greedy, so the engine tries the capture first right after the
first angle bracket, then at the bracket itself, then at each earlier
position walking back to the start.  A position matches only when the
address grammar matches there and the tail .* [dollar] accepts the
remainder, i.e. the remainder holds no newline; otherwise the engine moves
to the next position.  ascTry rpre cur realizes exactly that order: cur is
the current start suffix and rpre the reversed text still available to
prepend one character at a time. -/
def ascTry : List Char → List Char → Option (List Char)
  | rpre, cur =>
    match matchAddr cur with
    | some (a, rest) =>
      if rest.contains '\n' then
        match rpre with
        | [] => none
        | c :: rpre2 => ascTry rpre2 (c :: cur)
      else some a
    | none =>
      match rpre with
      | [] => none
      | c :: rpre2 => ascTry rpre2 (c :: cur)

/-- Capture of EMAIL_RE_1 on the input, none when the pattern does not
match.  (cleanup_sender only consults it when the input contains an angle
bracket.) -/
def re1Capture (s : List Char) : Option (List Char) :=
  match splitAtLt s with
  | none => none
  | some (pre, post) => ascTry (List.reverse (pre ++ ['<'])) post

/-- Match of ( [\w-]+ \. )+ [\w-] at-least-2-at-most-4 against the whole
input (EMAIL_RE_2 is anchored and ends right after the final token).  At the
stop position the remainder must be the final token itself: all isW2 and of
length two to four.  Fuelled like domMatchAux. -/
def domFullMatchAux : Nat → List Char → Bool
  | 0, _ => false
  | fuel + 1, s =>
    match labelStepParts s with
    | none => false
    | some (_, rest2) =>
      domFullMatchAux fuel rest2 ||
        (rest2.all isW2 && decide (2 ≤ rest2.length) && decide (rest2.length ≤ 4))

/-- Whole-input domain match, fuel instantiated. -/
def domFullMatch (s : List Char) : Bool :=
  domFullMatchAux s.length s

/-- Whether EMAIL_RE_2 matches the whole input. -/
def re2Matches (s : List Char) : Bool :=
  !(s.takeWhile isW1).isEmpty &&
    (match s.dropWhile isW1 with
     | '@' :: rest1 => domFullMatch rest1
     | _ => false)

/-- Capture of EMAIL_RE_2: its group spans the whole anchored match, so a
successful capture is the entire input. -/
def re2Capture (s : List Char) : Option (List Char) :=
  if re2Matches s then some s else none

/-- cleanup_sender (main.rs lines 237-250) on the character list: if the raw
value contains an angle bracket, replace it by the capture of EMAIL_RE_1 when
that matches; otherwise replace it by the capture of EMAIL_RE_2 when that
matches; in either no-match case return the raw value unchanged. -/
def cleanup_sender_list (s : List Char) : List Char :=
  if s.contains '<' then
    match re1Capture s with
    | some a => a
    | none => s
  else
    match re2Capture s with
    | some a => a
    | none => s

/-- cleanup_sender on strings. -/
def cleanup_sender (sender : String) : String :=
  String.mk (cleanup_sender_list sender.data)

/-! ## Messages and headers

google_gmail1's Message carries Option-valued fields; the program reads
message.payload.unwrap_or_default().headers.unwrap_or_default(), so a missing
payload or missing header list is an empty list.  Only the fields the program
reads are modelled. -/

/-- One name/value header pair (both Option-valued in the provider's type). -/
structure Header where
  name : Option String
  value : Option String
deriving DecidableEq

/-- The payload part of a fetched message: its header list. -/
structure MessagePart where
  headers : Option (List Header)
deriving DecidableEq

/-- A provider message: identifier and payload.  Listing stubs are Messages
whose payload the program never reads. -/
structure Message where
  id : Option String
  payload : Option MessagePart
deriving DecidableEq

/-- The header list the program works on:
payload.unwrap_or_default().headers.unwrap_or_default(). -/
def headersOf (m : Message) : List Header :=
  match m.payload with
  | none => []
  | some p => p.headers.getD []

/-- Reason of a process abort by a hard assertion (a Rust expect). -/
inductive PanicKind where
  | missingId
  | missingValue
deriving DecidableEq

/-- Result of a fallible step: success, a recoverable error the caller's
question mark operator propagates, or a process abort. -/
inductive Res (α : Type) where
  | ok (a : α)
  | storageErr (msg : String)
  | panicked (k : PanicKind)
deriving DecidableEq

/-- get_sender (main.rs lines 252-306): the first header named exactly
From, else the first named exactly FROM, else the first named exactly
Return-Path, else the empty string (logged as anomalous and still
processed).  A matching header whose value is absent aborts the process
(expect on the value). -/
def get_sender (m : Message) : Res String :=
  match (headersOf m).filter (fun h => h.name == some "From") with
  | h :: _ =>
    match h.value with
    | some v => .ok v
    | none => .panicked .missingValue
  | [] =>
    match (headersOf m).filter (fun h => h.name == some "FROM") with
    | h :: _ =>
      match h.value with
      | some v => .ok v
      | none => .panicked .missingValue
    | [] =>
      match (headersOf m).filter (fun h => h.name == some "Return-Path") with
      | h :: _ =>
        match h.value with
        | some v => .ok v
        | none => .panicked .missingValue
      | [] => .ok ""

/-! ## The SQLite state

Two tables: seen_mails(mail_id TEXT PRIMARY KEY) and
senders(sender TEXT PRIMARY KEY, mails_sent INTEGER NOT NULL), each modelled
as its list of rows in insertion order. -/

/-- The durable state: the rows of seen_mails and of senders. -/
structure DB where
  seen_mails : List String
  senders : List (String × Int)
deriving DecidableEq

/-- seen_mail (main.rs lines 176-187): SELECT count(1) FROM seen_mails WHERE
mail_id = ?, true iff the count is positive, i.e. membership. -/
def seen_mail (message_id : String) (db : DB) : Bool :=
  db.seen_mails.contains message_id

/-- mark_seen (main.rs lines 189-195): expect the message id (abort when it
is absent), then INSERT INTO seen_mails; the INSERT hits the primary-key
constraint when the id is already a row. -/
def mark_seen (message : Message) (db : DB) : Res DB :=
  match message.id with
  | none => .panicked .missingId
  | some i =>
    if seen_mail i db then .storageErr "UNIQUE constraint failed: seen_mails.mail_id"
    else .ok { db with seen_mails := db.seen_mails ++ [i] }

/-- SELECT mails_sent FROM senders WHERE sender = ? (fetch_optional): the
first row whose key equals the sender, scanned in row order. -/
def lookupSender : List (String × Int) → String → Option Int
  | [], _ => none
  | p :: t, sender => if p.1 = sender then some p.2 else lookupSender t sender

/-- UPDATE senders SET mails_sent = ? WHERE sender = ?: rewrite every row
whose key equals the sender (the primary key makes it at most one). -/
def updateSender (tbl : List (String × Int)) (sender : String) (c : Int) :
    List (String × Int) :=
  tbl.map (fun p => if p.1 = sender then (p.1, c) else p)

/-- The table effect of increment_sender_mails (main.rs lines 202-231): no
row for the sender inserts (sender, 1); an existing row with stored count c
is updated to c + 1 when c is positive and to 0 + 1 otherwise (the local
mails_sent starts at 0 and only a positive stored count overwrites it). -/
def bumpSender (tbl : List (String × Int)) (sender : String) : List (String × Int) :=
  match lookupSender tbl sender with
  | none => tbl ++ [(sender, 1)]
  | some count => updateSender tbl sender ((if count > 0 then count else 0) + 1)

/-- increment_sender_mails (main.rs lines 197-234): derive the cleaned
sender from the message and apply the table effect. -/
def increment_sender_mails (message : Message) (db : DB) : Res DB :=
  match get_sender message with
  | .ok raw => .ok { db with senders := bumpSender db.senders (cleanup_sender raw) }
  | .storageErr e => .storageErr e
  | .panicked k => .panicked k

/-! ## The per-message loop

parse_messages (main.rs lines 118-174) opens a transaction per message,
checks seen_mail on the stub's id (expect: abort when the stub has no id),
and on the not-seen path fetches the full message, runs mark_seen and then
increment_sender_mails inside the same transaction, and commits.  The remote
provider is the pure oracle fetch. -/

/-- Processing of one listing stub against the state, commit included. -/
def processStub (fetch : String → Message) (db : DB) (stub : Message) : Res DB :=
  match stub.id with
  | none => .panicked .missingId
  | some mid =>
    if seen_mail mid db then .ok db
    else
      match mark_seen (fetch mid) db with
      | .ok db1 => increment_sender_mails (fetch mid) db1
      | .storageErr e => .storageErr e
      | .panicked k => .panicked k

/-- parse_messages over a page (or any concatenation of pages in listing
order): left-to-right, stopping at the first error or abort. -/
def parse_messages (fetch : String → Message) (db : DB) : List Message → Res DB
  | [] => .ok db
  | stub :: rest =>
    match processStub fetch db stub with
    | .ok db1 => parse_messages fetch db1 rest
    | .storageErr e => .storageErr e
    | .panicked k => .panicked k

/-- Fate of the one per-message transaction: committed, or rolled back by a
crash or error before tx.commit(). -/
inductive TxOutcome where
  | committed
  | rolledBack
deriving DecidableEq

/-- The durably observable state after processing one message under a given
transaction outcome: a rollback discards every write of the transaction
(the has_seen check, mark_seen and increment_sender_mails all run on the
same tx), a commit makes them all durable. -/
def msgObservable (fetch : String → Message) (db : DB) (stub : Message) :
    TxOutcome → Res DB
  | .committed => processStub fetch db stub
  | .rolledBack => .ok db

/-! ## The top-level retry loop

main (main.rs lines 68-82): let retries = 0; loop; if retries > 3 then
panic; run the pass; break on success; print and loop on failure.  The
increment of retries (line 71) is commented out in the source, so the
counter keeps its initial value on every iteration. -/

/-- Initial value of the retries counter; the source never updates it. -/
def retriesInit : Nat := 0

/-- State of the top-level loop: about to run the pass numbered attempt
(zero-based), finished successfully, or aborted by the retry-budget panic. -/
inductive RunState where
  | running (attempt : Nat)
  | finished
  | aborted
deriving DecidableEq

/-- One iteration of the loop in main, for a given oracle attemptOk telling
whether the pass numbered n succeeds. -/
def retryLoopStep (attemptOk : Nat → Bool) : RunState → RunState
  | .running n =>
    if retriesInit > 3 then .aborted
    else if attemptOk n then .finished
    else .running (n + 1)
  | s => s

/-- The loop state after n iterations from the start. -/
def retryLoopIter (attemptOk : Nat → Bool) : Nat → RunState
  | 0 => .running 0
  | n + 1 => retryLoopStep attemptOk (retryLoopIter attemptOk n)

/-! ## Concrete data for witnesses -/

/-- An empty database. -/
def dbEmpty : DB := { seen_mails := [], senders := [] }

/-- A fetch oracle for the count-correctness scenario: message m4 is from
b@x.com, every other id from a@x.com. -/
def fetchC6 (i : String) : Message :=
  if i == "m4" then
    { id := some i,
      payload := some { headers := some [{ name := some "From", value := some "b@x.com" }] } }
  else
    { id := some i,
      payload := some { headers := some [{ name := some "From", value := some "a@x.com" }] } }

/-- Four listing stubs: three messages from a@x.com then one from b@x.com. -/
def stubsC6 : List Message :=
  [{ id := some "m1", payload := none }, { id := some "m2", payload := none },
   { id := some "m3", payload := none }, { id := some "m4", payload := none }]

/-- The database after one pass over stubsC6 from empty. -/
def dbC6 : DB :=
  { seen_mails := ["m1", "m2", "m3", "m4"],
    senders := [("a@x.com", 3), ("b@x.com", 1)] }

/-- A message whose only recognized sender header is FROM. -/
def mC5 : Message :=
  { id := some "m",
    payload := some
      { headers := some [{ name := some "X-Other", value := some "zz" },
                         { name := some "FROM", value := some "boss@corp.io" }] } }

/-- A stub with no identifier. -/
def stubNoId : Message := { id := none, payload := none }

/-- A listing stub for message m1. -/
def stubM1 : Message := { id := some "m1", payload := none }

/-- The database after committing the processing of stubM1 from empty. -/
def dbM1 : DB := { seen_mails := ["m1"], senders := [("a@x.com", 1)] }

/-- A database that has already seen m1 and counted nothing. -/
def dbSeenM1 : DB := { seen_mails := ["m1"], senders := [] }

/-! ## Helper lemmas -/

theorem seen_mail_iff {i : String} {db : DB} : seen_mail i db = true ↔ i ∈ db.seen_mails :=
  ⟨fun h => List.mem_of_elem_eq_true h, fun h => List.elem_eq_true_of_mem h⟩

theorem lookup_update (tbl : List (String × Int)) (s : String) (c c' : Int)
    (h : lookupSender tbl s = some c) :
    lookupSender (updateSender tbl s c') s = some c' := by
  induction tbl with
  | nil => simp [lookupSender] at h
  | cons p t ih =>
    by_cases hp : p.1 = s
    · simp [lookupSender, updateSender, hp]
    · simp only [lookupSender, updateSender, List.map_cons, if_neg hp] at h ⊢
      exact ih h

theorem lookup_append_new (tbl : List (String × Int)) (s : String)
    (h : lookupSender tbl s = none) :
    lookupSender (tbl ++ [(s, 1)]) s = some 1 := by
  induction tbl with
  | nil => simp [lookupSender]
  | cons p t ih =>
    by_cases hp : p.1 = s
    · simp [lookupSender, if_pos hp] at h
    · simp only [lookupSender, List.cons_append, if_neg hp] at h ⊢
      exact ih h

/-- Exhaustive description of the successful outcomes of processStub: either
the stub's id was seen and the state is untouched, or it was not seen and the
committed state carries exactly the two writes of the transaction, the
seen-mark and the sender-count bump, together. -/
theorem processStub_ok_cases {fetch : String → Message} {db : DB} {stub : Message} {db' : DB}
    (h : processStub fetch db stub = .ok db') :
    (∃ mid, stub.id = some mid ∧ seen_mail mid db = true ∧ db' = db) ∨
    (∃ mid j v, stub.id = some mid ∧ seen_mail mid db = false ∧
      (fetch mid).id = some j ∧ seen_mail j db = false ∧
      get_sender (fetch mid) = .ok v ∧
      db' = { seen_mails := db.seen_mails ++ [j],
              senders := bumpSender db.senders (cleanup_sender v) }) := by
  unfold processStub at h
  cases hid : stub.id with
  | none => simp only [hid] at h; exact Res.noConfusion h
  | some mid =>
    simp only [hid] at h
    cases hseen : seen_mail mid db with
    | true =>
      simp only [hseen, if_true] at h
      exact Or.inl ⟨mid, rfl, hseen, by cases h; rfl⟩
    | false =>
      simp only [hseen, Bool.false_eq_true, if_false] at h
      unfold mark_seen at h
      cases hj : (fetch mid).id with
      | none => simp only [hj] at h; exact Res.noConfusion h
      | some j =>
        simp only [hj] at h
        cases hjseen : seen_mail j db with
        | true => simp only [hjseen, if_true] at h; exact Res.noConfusion h
        | false =>
          simp only [hjseen, Bool.false_eq_true, if_false] at h
          unfold increment_sender_mails at h
          cases hs : get_sender (fetch mid) with
          | ok v =>
            simp only [hs] at h
            exact Or.inr ⟨mid, j, v, rfl, hseen, hj, hjseen, hs, by cases h; rfl⟩
          | storageErr e => simp only [hs] at h; exact Res.noConfusion h
          | panicked k => simp only [hs] at h; exact Res.noConfusion h

theorem processStub_seen_mono {fetch : String → Message} {db : DB} {stub : Message} {db' : DB}
    (h : processStub fetch db stub = .ok db') :
    ∀ x, x ∈ db.seen_mails → x ∈ db'.seen_mails := by
  intro x hx
  rcases processStub_ok_cases h with ⟨mid, _, _, rfl⟩ | ⟨mid, j, v, _, _, _, _, _, rfl⟩
  · exact hx
  · exact List.mem_append_left _ hx

theorem parse_seen_mono {fetch : String → Message} :
    ∀ (stubs : List Message) (db db' : DB),
      parse_messages fetch db stubs = .ok db' →
      ∀ x, x ∈ db.seen_mails → x ∈ db'.seen_mails := by
  intro stubs
  induction stubs with
  | nil =>
    intro db db' h x hx
    unfold parse_messages at h
    cases h
    exact hx
  | cons stub rest ih =>
    intro db db' h x hx
    unfold parse_messages at h
    cases hp : processStub fetch db stub with
    | ok db1 =>
      simp only [hp] at h
      exact ih db1 db' h x (processStub_seen_mono hp x hx)
    | storageErr e => simp only [hp] at h; exact Res.noConfusion h
    | panicked k => simp only [hp] at h; exact Res.noConfusion h

/-- After a successful pass every listed stub has an identifier and that
identifier is a row of seen_mails, provided the provider returns each fetched
message under the id it was asked for. -/
theorem parse_ok_covers {fetch : String → Message} (hfetch : ∀ i, (fetch i).id = some i) :
    ∀ (stubs : List Message) (db db' : DB),
      parse_messages fetch db stubs = .ok db' →
      ∀ stub ∈ stubs, ∃ i, stub.id = some i ∧ i ∈ db'.seen_mails := by
  intro stubs
  induction stubs with
  | nil => intro db db' _ stub hs; exact absurd hs (List.not_mem_nil stub)
  | cons stub0 rest ih =>
    intro db db' h stub hs
    unfold parse_messages at h
    cases hp : processStub fetch db stub0 with
    | ok db1 =>
      simp only [hp] at h
      rcases List.mem_cons.mp hs with rfl | hmem
      · rcases processStub_ok_cases hp with
          ⟨mid, hid, hseen, rfl⟩ | ⟨mid, j, v, hid, _, hj, _, _, hdb1⟩
        · exact ⟨mid, hid, parse_seen_mono rest db1 db' h mid (seen_mail_iff.mp hseen)⟩
        · refine ⟨mid, hid, parse_seen_mono rest db1 db' h mid ?_⟩
          have hjm : j = mid := by
            have hf := hfetch mid
            rw [hj] at hf
            exact Option.some.inj hf
          subst hjm
          rw [hdb1]
          exact List.mem_append_right _ (List.mem_singleton.mpr rfl)
      · exact ih db1 db' h stub hmem
    | storageErr e => simp only [hp] at h; exact Res.noConfusion h
    | panicked k => simp only [hp] at h; exact Res.noConfusion h

/-- A pass over stubs whose identifiers are all already seen leaves the
state exactly as it was. -/
theorem parse_skip_all {fetch : String → Message} :
    ∀ (stubs : List Message) (db : DB),
      (∀ stub ∈ stubs, ∃ i, stub.id = some i ∧ seen_mail i db = true) →
      parse_messages fetch db stubs = .ok db := by
  intro stubs
  induction stubs with
  | nil => intro db _; rfl
  | cons stub0 rest ih =>
    intro db hall
    obtain ⟨i, hid, hseen⟩ := hall stub0 (List.mem_cons_self stub0 rest)
    have hp : processStub fetch db stub0 = .ok db := by
      unfold processStub
      simp only [hid, hseen, if_true]
    unfold parse_messages
    simp only [hp]
    exact ih db (fun stub hs => hall stub (List.mem_cons_of_mem stub0 hs))

theorem filter_head?_eq_find? {α : Type} (p : α → Bool) (l : List α) :
    (l.filter p).head? = l.find? p := by
  induction l with
  | nil => rfl
  | cons x xs ih => by_cases h : p x <;> simp [List.filter_cons, List.find?_cons, h, ih]

theorem filter_eq_nil_of_find?_none {α : Type} {p : α → Bool} {l : List α}
    (h : l.find? p = none) : l.filter p = [] := by
  have hh := filter_head?_eq_find? p l
  rw [h] at hh
  exact List.head?_eq_none_iff.mp hh

theorem filter_eq_cons_of_find?_some {α : Type} {p : α → Bool} {l : List α} {h0 : α}
    (h : l.find? p = some h0) : ∃ t, l.filter p = h0 :: t := by
  have hh := filter_head?_eq_find? p l
  rw [h] at hh
  cases hf : l.filter p with
  | nil => rw [hf] at hh; exact Option.noConfusion hh
  | cons a t =>
    rw [hf] at hh
    exact ⟨t, by rw [← Option.some.inj hh]⟩

theorem splitAtLt_append :
    ∀ (pre : List Char), '<' ∉ pre → ∀ post, splitAtLt (pre ++ '<' :: post) = some (pre, post) := by
  intro pre
  induction pre with
  | nil =>
    intro _ post
    simp [splitAtLt]
  | cons c cs ih =>
    intro hpre post
    have hc : ¬((c == '<') = true) := by
      simp only [beq_iff_eq]
      intro hh
      exact hpre (List.mem_cons.mpr (Or.inl hh.symm))
    have hpre2 : '<' ∉ cs := fun hm => hpre (List.mem_cons_of_mem c hm)
    simp only [List.cons_append, splitAtLt, if_neg hc, List.append_eq, ih hpre2 post]

/-- The preference-ordered search starts at the position right after the
first angle bracket: when the address grammar matches there and no newline
follows the capture, that capture is the result, whatever text could be
tried later. -/
theorem ascTry_head (rpre cur a rest : List Char) (hm : matchAddr cur = some (a, rest))
    (hr : rest.contains '\n' = false) : ascTry rpre cur = some a := by
  cases rpre with
  | nil => simp only [ascTry, hm, hr, Bool.false_eq_true, if_false]
  | cons c rpre2 => simp only [ascTry, hm, hr, Bool.false_eq_true, if_false]

theorem contains_lt_append (pre post : List Char) :
    (pre ++ '<' :: post).contains '<' = true :=
  List.elem_eq_true_of_mem (List.mem_append_right pre (List.mem_cons_self '<' post))

/-- get_sender can abort only on a present header with an absent value,
never for a missing identifier. -/
theorem get_sender_panicked_kind (m : Message) (k : PanicKind)
    (h : get_sender m = .panicked k) : k = .missingValue := by
  unfold get_sender at h
  cases h1 : (headersOf m).filter (fun hd => hd.name == some "From") with
  | cons hh t =>
    simp only [h1] at h
    cases hv : hh.value with
    | some v => simp only [hv] at h; exact Res.noConfusion h
    | none => simp only [hv] at h; cases h; rfl
  | nil =>
    simp only [h1] at h
    cases h2 : (headersOf m).filter (fun hd => hd.name == some "FROM") with
    | cons hh t =>
      simp only [h2] at h
      cases hv : hh.value with
      | some v => simp only [hv] at h; exact Res.noConfusion h
      | none => simp only [hv] at h; cases h; rfl
    | nil =>
      simp only [h2] at h
      cases h3 : (headersOf m).filter (fun hd => hd.name == some "Return-Path") with
      | cons hh t =>
        simp only [h3] at h
        cases hv : hh.value with
        | some v => simp only [hv] at h; exact Res.noConfusion h
        | none => simp only [hv] at h; cases h; rfl
      | nil => simp only [h3] at h; exact Res.noConfusion h

/-! ## Claim theorems -/

/-- C1: running the full ingestion pass twice against the same fixed remote
message set yields identical senders table contents after the second run as
after the first: the second pass leaves the whole state of the first pass
unchanged (every identifier processed in pass one is present in seen_mails
and is skipped in pass two), so every sender's count agrees. The provider is
assumed to return each fetched message under the identifier it was asked
for. -/
theorem C1_second_pass_identical (fetch : String → Message) (db0 db1 : DB)
    (stubs : List Message)
    (hfetch : ∀ i, (fetch i).id = some i)
    (h1 : parse_messages fetch db0 stubs = .ok db1) :
    parse_messages fetch db1 stubs = .ok db1 ∧
    ∀ db2, parse_messages fetch db1 stubs = .ok db2 →
      ∀ k, lookupSender db2.senders k = lookupSender db1.senders k := by
  have hcov := parse_ok_covers hfetch stubs db0 db1 h1
  have hskip : parse_messages fetch db1 stubs = .ok db1 :=
    parse_skip_all stubs db1 (fun stub hs => by
      obtain ⟨i, hid, hmem⟩ := hcov stub hs
      exact ⟨i, hid, seen_mail_iff.mpr hmem⟩)
  refine ⟨hskip, fun db2 h2 k => ?_⟩
  rw [hskip] at h2
  cases h2
  rfl

/-- C1 witness: the pass over the four-message scenario is a no-op when run
again from the state it produced. -/
theorem C1_witness : parse_messages fetchC6 dbC6 stubsC6 = .ok dbC6 := by
  have hfetch : ∀ i, (fetchC6 i).id = some i := by
    intro i
    cases hb : (i == "m4") <;> simp [fetchC6, hb]
  exact (C1_second_pass_identical fetchC6 dbEmpty dbC6 stubsC6 hfetch (by decide)).1

/-- C2: the has_seen check, the seen-mark insertion and the sender-count
increment of one message run inside a single per-message transaction, so
whatever the transaction's fate (committed or rolled back mid-message), the
durably observable state either is exactly the prior state or carries both
writes together; a state with one write but not the other is never
observable. -/
theorem C2_per_message_tx_atomic (fetch : String → Message) (db : DB) (stub : Message)
    (o : TxOutcome) (db' : DB)
    (h : msgObservable fetch db stub o = .ok db') :
    db' = db ∨
    ∃ mid j v, stub.id = some mid ∧ seen_mail mid db = false ∧
      (fetch mid).id = some j ∧ get_sender (fetch mid) = .ok v ∧
      db'.seen_mails = db.seen_mails ++ [j] ∧
      db'.senders = bumpSender db.senders (cleanup_sender v) := by
  cases o with
  | rolledBack =>
    simp only [msgObservable] at h
    cases h
    exact Or.inl rfl
  | committed =>
    simp only [msgObservable] at h
    rcases processStub_ok_cases h with ⟨mid, _, _, rfl⟩ | ⟨mid, j, v, hid, hseen, hj, _, hs, rfl⟩
    · exact Or.inl rfl
    · exact Or.inr ⟨mid, j, v, hid, hseen, hj, hs, rfl, rfl⟩

/-- C2 witness: committing the processing of message m1 from the empty state
lands in the both-writes disjunct. -/
theorem C2_witness :
    dbM1 = dbEmpty ∨
    ∃ mid j v, stubM1.id = some mid ∧ seen_mail mid dbEmpty = false ∧
      (fetchC6 mid).id = some j ∧ get_sender (fetchC6 mid) = .ok v ∧
      dbM1.seen_mails = dbEmpty.seen_mails ++ [j] ∧
      dbM1.senders = bumpSender dbEmpty.senders (cleanup_sender v) :=
  C2_per_message_tx_atomic fetchC6 dbEmpty stubM1 .committed dbM1 (by decide)

/-- C3: evidence against the claimed retry budget. The retries counter is
initialized to 0 and the source line that would increment it is commented
out, so when every attempt of the pass fails the loop is still running after
any number of iterations — it never reaches the aborted state, and more than
four attempts are made. The claim's bound of four attempts followed by
abnormal termination does not hold on the code. -/
theorem C3_retry_loop_never_aborts :
    ∀ n, retryLoopIter (fun _ => false) n = .running n := by
  intro n
  induction n with
  | zero => rfl
  | succ n ih => simp [retryLoopIter, retryLoopStep, retriesInit, ih]

/-- C4: a stub whose identifier is already in the seen set is a complete
no-op: the result state is exactly the input state (seen_mails and senders
unchanged), and since the conclusion holds for every fetch oracle, the
outcome is independent of the provider — no full-message fetch is
consulted. -/
theorem C4_seen_skip_noop (fetch : String → Message) (db : DB) (stub : Message) (mid : String)
    (h1 : stub.id = some mid) (h2 : seen_mail mid db = true) :
    processStub fetch db stub = .ok db := by
  unfold processStub
  simp only [h1, h2, if_true]

/-- C4 witness: reprocessing m1 against a state that has seen it changes
nothing. -/
theorem C4_witness : processStub fetchC6 dbSeenM1 stubM1 = .ok dbSeenM1 :=
  C4_seen_skip_noop fetchC6 dbSeenM1 stubM1 "m1" rfl (by decide)

/-- C5: the raw sender comes from the first header named exactly From, else
the first named exactly FROM, else the first named exactly Return-Path; with
none of the three the sender is the empty string and the message is still
processed — increment_sender_mails then counts it under the empty-string
key. -/
theorem C5_header_priority :
    (∀ m h v, (headersOf m).find? (fun hd => hd.name == some "From") = some h →
      h.value = some v → get_sender m = .ok v) ∧
    (∀ m h v, (headersOf m).find? (fun hd => hd.name == some "From") = none →
      (headersOf m).find? (fun hd => hd.name == some "FROM") = some h →
      h.value = some v → get_sender m = .ok v) ∧
    (∀ m h v, (headersOf m).find? (fun hd => hd.name == some "From") = none →
      (headersOf m).find? (fun hd => hd.name == some "FROM") = none →
      (headersOf m).find? (fun hd => hd.name == some "Return-Path") = some h →
      h.value = some v → get_sender m = .ok v) ∧
    (∀ m, (headersOf m).find? (fun hd => hd.name == some "From") = none →
      (headersOf m).find? (fun hd => hd.name == some "FROM") = none →
      (headersOf m).find? (fun hd => hd.name == some "Return-Path") = none →
      get_sender m = .ok "") ∧
    (∀ m db, (headersOf m).find? (fun hd => hd.name == some "From") = none →
      (headersOf m).find? (fun hd => hd.name == some "FROM") = none →
      (headersOf m).find? (fun hd => hd.name == some "Return-Path") = none →
      increment_sender_mails m db = .ok { db with senders := bumpSender db.senders "" }) := by
  have hempty : cleanup_sender "" = "" := by decide
  refine ⟨?_, ?_, ?_, ?_, ?_⟩
  · intro m h v h1 hv
    obtain ⟨t, hf⟩ := filter_eq_cons_of_find?_some h1
    unfold get_sender
    simp only [hf, hv]
  · intro m h v h1 h2 hv
    obtain ⟨t, hf2⟩ := filter_eq_cons_of_find?_some h2
    unfold get_sender
    simp only [filter_eq_nil_of_find?_none h1, hf2, hv]
  · intro m h v h1 h2 h3 hv
    obtain ⟨t, hf3⟩ := filter_eq_cons_of_find?_some h3
    unfold get_sender
    simp only [filter_eq_nil_of_find?_none h1, filter_eq_nil_of_find?_none h2, hf3, hv]
  · intro m h1 h2 h3
    unfold get_sender
    simp only [filter_eq_nil_of_find?_none h1, filter_eq_nil_of_find?_none h2,
      filter_eq_nil_of_find?_none h3]
  · intro m db h1 h2 h3
    have hs : get_sender m = .ok "" := by
      unfold get_sender
      simp only [filter_eq_nil_of_find?_none h1, filter_eq_nil_of_find?_none h2,
        filter_eq_nil_of_find?_none h3]
    unfold increment_sender_mails
    simp only [hs, hempty]

/-- C5 witness: a message with no From header but a FROM header yields that
header's value. -/
theorem C5_witness : get_sender mC5 = .ok "boss@corp.io" :=
  C5_header_priority.2.1 mC5 { name := some "FROM", value := some "boss@corp.io" }
    "boss@corp.io" (by decide) (by decide) rfl

/-- C6: increment reads the current count (0 when the sender is absent) and
writes current plus one — an absent sender ends at 1 and a sender with
non-negative count c ends at c + 1 — and one pass over three messages from
a@x.com and one from b@x.com, starting from the empty state, produces the
senders table with exactly (a@x.com, 3) and (b@x.com, 1). -/
theorem C6_increment_semantics :
    (∀ tbl s, lookupSender tbl s = none → lookupSender (bumpSender tbl s) s = some 1) ∧
    (∀ tbl s c, lookupSender tbl s = some c → 0 ≤ c →
      lookupSender (bumpSender tbl s) s = some (c + 1)) ∧
    parse_messages fetchC6 dbEmpty stubsC6 = .ok dbC6 := by
  refine ⟨?_, ?_, by decide⟩
  · intro tbl s h
    unfold bumpSender
    simp only [h]
    exact lookup_append_new tbl s h
  · intro tbl s c h hc
    unfold bumpSender
    simp only [h]
    have he : ((if c > 0 then c else 0) + 1) = c + 1 := by
      by_cases h0 : c > 0
      · rw [if_pos h0]
      · rw [if_neg h0]; omega
    rw [he]
    exact lookup_update tbl s c (c + 1) h

/-- C6 witness: a stored count of 5 becomes 6. -/
theorem C6_witness :
    lookupSender (bumpSender [("a@x.com", 5)] "a@x.com") "a@x.com" = some 6 :=
  C6_increment_semantics.2.1 [("a@x.com", 5)] "a@x.com" 5 rfl (by decide)

/-- C7: the normalizer maps the display-name form to the bracketed address,
keeps a bare address, and returns a non-address unchanged; in general a
grammar-matching address beginning right after the first angle bracket,
with no newline after it, is what gets extracted, and an input on which the
pattern does not match is returned unchanged rather than rejected.  The two
quantified conjuncts restrict the bracketed text (respectively the whole
value) to ASCII characters, the domain on which the modelled word-character
class coincides with the Unicode-aware one the program compiles, so they
state the program's behavior and nothing beyond it. -/
theorem C7_cleanup_normalization :
    cleanup_sender "Jane Doe <jane@example.com>" = "jane@example.com" ∧
    cleanup_sender "jane@example.com" = "jane@example.com" ∧
    cleanup_sender "not an email" = "not an email" ∧
    (∀ pre post a rest, charsAscii post = true → '<' ∉ pre →
      matchAddr post = some (a, rest) → rest.contains '\n' = false →
      cleanup_sender (String.mk (pre ++ '<' :: post)) = String.mk a) ∧
    (∀ s : String, charsAscii s.data = true → s.data.contains '<' = true →
      re1Capture s.data = none → cleanup_sender s = s) := by
  refine ⟨by decide, by decide, by decide, ?_, ?_⟩
  · intro pre post a rest _ hpre hm hr
    show String.mk (cleanup_sender_list (pre ++ '<' :: post)) = String.mk a
    unfold cleanup_sender_list
    rw [contains_lt_append pre post]
    unfold re1Capture
    simp only [splitAtLt_append pre hpre post, ascTry_head _ post a rest hm hr, if_true]
  · intro s _ h1 h2
    show String.mk (cleanup_sender_list s.data) = s
    unfold cleanup_sender_list
    rw [h1]
    simp only [h2, if_true]

/-- C7 witness: the bracketed address after a display name is extracted. -/
theorem C7_witness :
    cleanup_sender (String.mk (['B', 'o', 'b', ' '] ++ '<' :: "bob@x.io>".data)) =
      String.mk "bob@x.io".data :=
  C7_cleanup_normalization.2.2.2.1 ['B', 'o', 'b', ' '] "bob@x.io>".data "bob@x.io".data
    ">".data (by decide) (by decide) (by decide) (by decide)

/-- C8 counterexample: a bare address surrounded by whitespace is NOT
normalized — cleanup_sender returns it unchanged, with the whitespace, and
not the trimmed address the claim promises (EMAIL_RE_2 is anchored against
the untrimmed value and the code never trims). -/
theorem C8_whitespace_counterexample :
    cleanup_sender " jane@example.com" = " jane@example.com" ∧
    cleanup_sender " jane@example.com" ≠ "jane@example.com" := by
  refine ⟨by decide, by decide⟩

/-- C8 as amended: for a raw value containing no angle bracket the entire
untrimmed value is matched against the standalone address grammar, and the
value is returned unchanged in every case — the capture of a successful
whole-value match is the value itself, and on failure the original is the
deliberate fallback.  In particular whitespace-padded addresses are returned
unchanged, not normalized. -/
theorem C8_no_angle_identity (s : String) (h : s.data.contains '<' = false) :
    cleanup_sender s = s := by
  show String.mk (cleanup_sender_list s.data) = s
  unfold cleanup_sender_list
  rw [h]
  simp only [Bool.false_eq_true, if_false]
  unfold re2Capture
  cases hr : re2Matches s.data with
  | true => simp only [hr, if_true]
  | false => simp only [hr, Bool.false_eq_true, if_false]

/-- C8 witness: a bracketless value is returned unchanged. -/
theorem C8_no_angle_witness : cleanup_sender "bounces+12345" = "bounces+12345" :=
  C8_no_angle_identity "bounces+12345" (by decide)

/-- C9: a stub without an identifier makes processing abort the process by
hard assertion (the missingId panic, a Res.panicked value, never a
recoverable Res.storageErr the retry loop could catch), the same assertion
guards mark_seen on the fetched message, and under the precondition that
the provider supplies identifiers the abort is unreachable: the outcome is
then success, a storage error, or at worst the distinct missing-header-value
panic. -/
theorem C9_missing_id_hard_abort :
    (∀ fetch db stub, stub.id = none → processStub fetch db stub = .panicked .missingId) ∧
    (∀ msg db, msg.id = none → mark_seen msg db = .panicked .missingId) ∧
    (∀ fetch db stub mid j, stub.id = some mid → (fetch mid).id = some j →
      (∃ db', processStub fetch db stub = .ok db') ∨
      (∃ e, processStub fetch db stub = .storageErr e) ∨
      processStub fetch db stub = .panicked .missingValue) := by
  refine ⟨?_, ?_, ?_⟩
  · intro fetch db stub h
    unfold processStub
    simp only [h]
  · intro msg db h
    unfold mark_seen
    simp only [h]
  · intro fetch db stub mid j hid hj
    rcases hps : processStub fetch db stub with db' | e | k
    · exact Or.inl ⟨db', rfl⟩
    · exact Or.inr (Or.inl ⟨e, rfl⟩)
    · refine Or.inr (Or.inr ?_)
      have hk : k = .missingValue := by
        unfold processStub at hps
        simp only [hid] at hps
        cases hseen : seen_mail mid db with
        | true => simp only [hseen, if_true] at hps; exact Res.noConfusion hps
        | false =>
          simp only [hseen, Bool.false_eq_true, if_false] at hps
          unfold mark_seen at hps
          simp only [hj] at hps
          cases hjseen : seen_mail j db with
          | true => simp only [hjseen, if_true] at hps; exact Res.noConfusion hps
          | false =>
            simp only [hjseen, Bool.false_eq_true, if_false] at hps
            unfold increment_sender_mails at hps
            cases hs : get_sender (fetch mid) with
            | ok v => simp only [hs] at hps; exact Res.noConfusion hps
            | storageErr e => simp only [hs] at hps; exact Res.noConfusion hps
            | panicked k2 =>
              simp only [hs] at hps
              have hk2 := get_sender_panicked_kind (fetch mid) k2 hs
              cases hps
              exact hk2
      rw [hk]

/-- C9 witness: a stub with no id aborts with the missingId panic. -/
theorem C9_witness : processStub fetchC6 dbEmpty stubNoId = .panicked .missingId :=
  C9_missing_id_hard_abort.1 fetchC6 dbEmpty stubNoId rfl

/-- C10: every row the increment touches or creates carries a count of at
least one — row-wise positivity is preserved by the operation, a new sender
is inserted with exactly 1, a stored count at most 0 is treated as 0 and
updated to exactly 1, and after any increment the incremented sender's row
exists with a positive count. -/
theorem C10_counts_positive :
    (∀ tbl s, (∀ q ∈ tbl, 1 ≤ q.2) → ∀ p ∈ bumpSender tbl s, 1 ≤ p.2) ∧
    (∀ tbl s, lookupSender tbl s = none → lookupSender (bumpSender tbl s) s = some 1) ∧
    (∀ tbl s c, lookupSender tbl s = some c → c ≤ 0 →
      lookupSender (bumpSender tbl s) s = some 1) ∧
    (∀ tbl s, ∃ c, lookupSender (bumpSender tbl s) s = some c ∧ 1 ≤ c) := by
  refine ⟨?_, ?_, ?_, ?_⟩
  · intro tbl s hall p hp
    unfold bumpSender at hp
    cases hl : lookupSender tbl s with
    | none =>
      simp only [hl] at hp
      rcases List.mem_append.mp hp with h | h
      · exact hall p h
      · rw [List.mem_singleton.mp h]
    | some c =>
      simp only [hl] at hp
      unfold updateSender at hp
      rcases List.mem_map.mp hp with ⟨q, hq, rfl⟩
      by_cases hqs : q.1 = s
      · rw [if_pos hqs]
        have hv : (1 : Int) ≤ (if c > 0 then c else 0) + 1 := by
          by_cases h0 : c > 0
          · rw [if_pos h0]; omega
          · rw [if_neg h0]; omega
        exact hv
      · rw [if_neg hqs]
        exact hall q hq
  · intro tbl s h
    unfold bumpSender
    simp only [h]
    exact lookup_append_new tbl s h
  · intro tbl s c h hc
    unfold bumpSender
    simp only [h]
    have he : ((if c > 0 then c else 0) + 1) = 1 := by
      rw [if_neg (by omega : ¬c > 0)]
      omega
    rw [he]
    exact lookup_update tbl s c 1 h
  · intro tbl s
    cases hl : lookupSender tbl s with
    | none =>
      refine ⟨1, ?_, le_refl 1⟩
      unfold bumpSender
      simp only [hl]
      exact lookup_append_new tbl s hl
    | some c =>
      refine ⟨(if c > 0 then c else 0) + 1, ?_, ?_⟩
      · unfold bumpSender
        simp only [hl]
        exact lookup_update tbl s c _ hl
      · by_cases h0 : c > 0
        · rw [if_pos h0]; omega
        · rw [if_neg h0]; omega

/-- C10 witness: a degenerate stored count of minus two is updated to
exactly one. -/
theorem C10_witness :
    lookupSender (bumpSender [("weird", -2)] "weird") "weird" = some 1 :=
  C10_counts_positive.2.2.1 [("weird", -2)] "weird" (-2) rfl (by decide)

end GmailStats
